import Mathlib

/-!
Verification development for the ZenithAlgo API bus (Go service in
`backend/app/server` / `src/unnamed/part_009`): the asynchronous task
queue with retries, startup recovery from the durable store, the run
index (`SaveRunIndex` / `ListRuns`), the WebSocket hub broadcast, and
the HTTP request-parsing front door.  Machine integers of the source
(Go `int`) are modelled as `Nat`; every value the claims touch is
non-negative in the source.  Wall-clock instants are opaque `Nat`
values supplied as inputs.
-/

namespace ZenithAlgo

/-- Embeds the `TaskStatus` string enumeration of the source
(`pending`, `running`, `succeeded`, `failed`). -/
inductive TaskStatus where
  | pending
  | running
  | succeeded
  | failed
deriving DecidableEq, Repr

/-- Embeds `RunRequest`: the body of a backtest/sweep trigger. -/
structure RunRequest where
  config : String
  topN : Int
deriving DecidableEq, Repr

/-- Embeds `RunResponse`: the structured outcome of one external run. -/
structure RunResponse where
  ok : Bool
  exitCode : Int
  stdout : String
  stderr : String
  durationMs : Int
  error : String
deriving DecidableEq, Repr

/-- Embeds the `Task` record.  Timestamps are opaque `Nat` instants;
nullable timestamps are `Option Nat`. -/
structure Task where
  id : String
  type : String
  request : RunRequest
  status : TaskStatus
  result : Option RunResponse
  lastError : String
  attempts : Nat
  maxRetries : Nat
  createdAt : Nat
  startedAt : Option Nat
  finishedAt : Option Nat
deriving DecidableEq, Repr

/-- Embeds the task construction in `TaskQueue.Enqueue` (fresh task:
`pending`, zero attempts, `MaxRetries` copied from the server config). -/
def enqueueTask (id : String) (taskType : String) (req : RunRequest)
    (maxRetries : Nat) (now : Nat) : Task :=
  { id := id
    type := taskType
    request := req
    status := .pending
    result := none
    lastError := ""
    attempts := 0
    maxRetries := maxRetries
    createdAt := now
    startedAt := none
    finishedAt := none }

/-- Embeds the first `tq.update` of the worker loop: mark the dequeued
task `running`, increment `Attempts`, stamp `StartedAt`. -/
def runningTransition (t : Task) (now : Nat) : Task :=
  { t with status := .running, attempts := t.attempts + 1, startedAt := some now }

/-- Embeds the post-execution `tq.update` of the worker loop: record the
`RunResponse`, stamp `FinishedAt`, set `succeeded` or `failed` (the
latter also records `LastError`). -/
def finishTransition (t : Task) (result : RunResponse) (now : Nat) : Task :=
  if result.ok then
    { t with status := .succeeded, result := some result, finishedAt := some now }
  else
    { t with status := .failed, lastError := result.error,
             result := some result, finishedAt := some now }

/-- Embeds the retry-path `tq.update` of the worker loop: reset the task
to `pending`, clearing `StartedAt`, `FinishedAt` and `Result`. -/
def retryReset (t : Task) : Task :=
  { t with status := .pending, startedAt := none, finishedAt := none, result := none }

/-- Embeds the `switch task.Type` dispatch of the worker loop: the
argument vector for the external command, or `none` for an unknown type. -/
def taskArgs (t : Task) : Option (List String) :=
  match t.type with
  | "backtest" => some ["backtest", "--config", t.request.config]
  | "sweep" =>
      some (["sweep", "--config", t.request.config] ++
        (if t.request.topN > 0 then ["--top-n", toString t.request.topN] else []))
  | _ => none

/-- The fixed failure response the worker stores for an unknown task
type (`RunResponse{OK: false, ExitCode: -1, Error: ...}`). -/
def unknownTypeResponse : RunResponse :=
  { ok := false, exitCode := -1, stdout := "", stderr := "", durationMs := 0,
    error := "未知任务类型" }

/-- Outcome of one worker-loop iteration on a dequeued task: the task
object after the iteration, whether it was re-enqueued for retry, and
the sequence of statuses broadcast (one `task_update` per `tq.update`). -/
structure WorkerStep where
  task : Task
  reenqueued : Bool
  broadcasts : List TaskStatus
deriving DecidableEq, Repr

/-- Embeds one iteration of `TaskQueue.worker` on a dequeued task.
`result` stands for the `RunResponse` the external runner returns for
this attempt; `now` for the wall clock during the iteration.  The
retry guard is the source's `!result.OK && task.Attempts <= task.MaxRetries`,
evaluated after the attempt increment. -/
def workerIteration (t0 : Task) (result : RunResponse) (now : Nat) : WorkerStep :=
  let t1 := runningTransition t0 now
  match taskArgs t1 with
  | none =>
      let t2 := { t1 with status := .failed, result := some unknownTypeResponse,
                          finishedAt := some now }
      { task := t2, reenqueued := false, broadcasts := [t1.status, t2.status] }
  | some _ =>
      let t2 := finishTransition t1 result now
      if !result.ok && t2.attempts ≤ t2.maxRetries then
        let t3 := retryReset t2
        { task := t3, reenqueued := true, broadcasts := [t1.status, t2.status, t3.status] }
      else
        { task := t2, reenqueued := false, broadcasts := [t1.status, t2.status] }

/-- Iterated worker loop on a single task, supplying the same external
`result` for every attempt (the always-fails / always-succeeds scenario
of the spec).  `fuel` bounds the number of iterations; the loop stops
when an iteration does not re-enqueue.  Returns the final task state
and the concatenated broadcast statuses.  The clock advances by one
between iterations. -/
def processLoop : Nat → Task → RunResponse → Nat → Task × List TaskStatus
  | 0, t, _, _ => (t, [])
  | Nat.succ fuel, t, res, clock =>
      let s := workerIteration t res clock
      if s.reenqueued then
        let rest := processLoop fuel s.task res (clock + 1)
        (rest.1, s.broadcasts ++ rest.2)
      else
        (s.task, s.broadcasts)

/-- Iterated worker loop on a single task with one supplied external
result per attempt; returns the task state after every completed
iteration (the re-enqueue loop stops at the first iteration that does
not re-enqueue, or when the result list runs out). -/
def processStates : List RunResponse → Task → Nat → List Task
  | [], _, _ => []
  | res :: rest, t, clock =>
      let s := workerIteration t res clock
      if s.reenqueued then s.task :: processStates rest s.task (clock + 1)
      else [s.task]

/-- Embeds the per-task crash-recovery step of `newTaskQueue`: a task
loaded from the store in `pending` or `running` status is reset to
`pending` with `StartedAt`/`FinishedAt` cleared and is re-enqueued
(second component `true`); any other task is kept as loaded and not
re-enqueued. -/
def recoverTask (t : Task) : Task × Bool :=
  if t.status == .pending || t.status == .running then
    ({ t with status := .pending, startedAt := none, finishedAt := none }, true)
  else (t, false)

/-- The in-memory state `newTaskQueue` builds from the loaded tasks:
the id-keyed task map (as an association list in load order) and the
work queue contents. -/
structure QueueState where
  tasks : List (String × Task)
  queue : List Task
deriving DecidableEq, Repr

/-- Embeds the `for _, task := range loaded` loop of `newTaskQueue`:
every loaded task is stored in the map (post-recovery state, since the
map holds the same object the recovery step mutates), and
crash-interrupted tasks are pushed onto the work queue in load order. -/
def loadRecover : List Task → QueueState
  | [] => { tasks := [], queue := [] }
  | t :: rest =>
      let r := recoverTask t
      let st := loadRecover rest
      { tasks := (t.id, r.1) :: st.tasks
        queue := (if r.2 then [r.1] else []) ++ st.queue }

/-- The decimal digit character for `n < 10` (code point `48 + n`). -/
def digitChar (n : Nat) : Char := Char.ofNat (48 + n)

/-- Little-endian decimal digits of `n`, with a structural fuel that
dominates `n` (so the definition reduces inside the kernel). -/
def natDigitsLEAux : Nat → Nat → List Nat
  | 0, _ => []
  | fuel + 1, n => if n < 10 then [n] else n % 10 :: natDigitsLEAux fuel (n / 10)

/-- Little-endian decimal digits of `n` (always at least one digit). -/
def natDigitsLE (n : Nat) : List Nat := natDigitsLEAux (n + 1) n

/-- Decimal value of a little-endian digit list (inverse of
`natDigitsLE`, used to prove IDs distinct). -/
def valLE : List Nat → Nat
  | [] => 0
  | d :: rest => d + 10 * valLE rest

/-- Embeds `strconv.FormatUint(seq, 10)`: unpadded base-10 rendering,
most significant digit first. -/
def formatUint (n : Nat) : String :=
  ⟨(natDigitsLE n).reverse.map digitChar⟩

/-- Embeds `TaskQueue.nextID`: the wall-clock timestamp rendered by
`time.Now().Format("20060102150405")` (supplied here as the opaque
14-character string `ts`) concatenated with `"-"` and the unpadded
decimal sequence counter. -/
def nextID (ts : String) (seq : Nat) : String :=
  ts ++ "-" ++ formatUint seq

/-- Byte-wise (memcmp / Go string) strict comparison of char lists;
RFC3339 and task-ID strings are ASCII, where bytes and chars agree. -/
def bytewiseLt : List Char → List Char → Bool
  | [], [] => false
  | [], _ :: _ => true
  | _ :: _, [] => false
  | a :: as, b :: bs =>
      if a < b then true else if b < a then false else bytewiseLt as bs

/-- Byte-wise non-strict comparison (total order, so `a ≤ b ↔ ¬ b < a`). -/
def bytewiseLe (a b : List Char) : Bool := !(bytewiseLt b a)

/-- Strict lexicographic order on ID strings, as `sort.Strings` and
SQLite TEXT comparison order them. -/
def idLt (a b : String) : Bool := bytewiseLt a.data b.data

/-- Embeds the `configSnapshot` yaml projection (`backtest.symbol`,
`.interval`, `.start`, `.end`); the source's `end` field is named
`endDate` because `end` is reserved in Lean.  A field absent from the
yaml document unmarshals to the empty string. -/
structure ConfigSnapshot where
  symbol : String
  interval : String
  start : String
  endDate : String
deriving DecidableEq, Repr

/-- Outcome of reading-and-parsing a file: `os.ReadFile` failure,
parse failure, or the parsed value. -/
inductive FileRead (α : Type) where
  | unreadable
  | parseFailed
  | ok (a : α)
deriving DecidableEq, Repr

/-- One entry of `os.ReadDir` on the candidate results directory. -/
structure DirEntry where
  name : String
  isDir : Bool
  modTime : Nat
deriving DecidableEq, Repr

/-- The filesystem facts `SaveRunIndex` consults, supplied as inputs:
the config file read+yaml-unmarshal outcome, the `os.ReadDir` listing
of the computed base directory (`none` models a ReadDir error), the
`run_id` override obtained from a readable and parsable `meta.json`
(already reduced to the override value or `none`), and the raw
`summary.json` content when readable. -/
structure RunsEnv where
  cfg : FileRead ConfigSnapshot
  resultDirEntries : Option (List DirEntry)
  metaRunID : Option String
  summaryData : Option String
deriving Repr

/-- Embeds `findLatestDir`: scan the directory entries, keep the
most-recently-modified subdirectory (strictly-later wins, first wins on
ties, non-directories skipped); empty string when no subdirectory
exists; error when the directory cannot be read. -/
def findLatestDir (baseDir : String) (entries : Option (List DirEntry)) :
    Except String String :=
  match entries with
  | none => Except.error "读取结果目录失败"
  | some es =>
      let pick := es.foldl (fun (acc : String × Nat) e =>
        if !e.isDir then acc
        else if acc.1 == "" || e.modTime > acc.2 then (baseDir ++ "/" ++ e.name, e.modTime)
        else acc) ("", 0)
      Except.ok pick.1

/-- Embeds `filepath.Base` for the path shapes `SaveRunIndex` builds
(no trailing slash): the last `/`-separated element. -/
def baseName (p : String) : String :=
  match (p.splitOn "/").reverse with
  | [] => "."
  | last :: _ => if last == "" then "." else last

/-- Embeds the config-path resolution of `SaveRunIndex`: an absolute
path is used as-is, a relative one is joined under the repo root. -/
def resolveCfgPath (repoRoot cfgPath : String) : String :=
  if cfgPath.startsWith "/" then cfgPath else repoRoot ++ "/" ++ cfgPath

/-- Embeds the `RunIndex` result-index record. -/
structure RunIndex where
  taskID : String
  taskType : String
  configPath : String
  resultDir : String
  runID : String
  symbol : String
  interval : String
  start : String
  endDate : String
  summary : String
  createdAt : String
deriving DecidableEq, Repr

/-- Embeds `Storage.SaveRunIndex` up to the final `INSERT`: read and
parse the task's config, require the four descriptive fields, locate
the most-recently-modified output subdirectory under
`results/<type>/<symbol>/<interval>/<start>_<end>`, derive the run id
(`meta.json` override, else the directory's base name) and the optional
summary snapshot; an error at any required step yields `Except.error`
and no row. -/
def saveRunIndex (repoRoot : String) (task : Task) (env : RunsEnv) (nowStr : String) :
    Except String RunIndex :=
  let cfgPath := resolveCfgPath repoRoot task.request.config
  match env.cfg with
  | .unreadable => Except.error "读取配置失败"
  | .parseFailed => Except.error "解析配置失败"
  | .ok snap =>
      if snap.symbol == "" || snap.interval == "" || snap.start == "" || snap.endDate == "" then
        Except.error "配置缺少 backtest 关键字段"
      else
        let baseDir := repoRoot ++ "/results/" ++ task.type ++ "/" ++ snap.symbol ++ "/" ++
          snap.interval ++ "/" ++ snap.start ++ "_" ++ snap.endDate
        match findLatestDir baseDir env.resultDirEntries with
        | Except.error e => Except.error e
        | Except.ok latestDir =>
            if latestDir == "" then Except.error "未找到结果目录"
            else
              let runID := match env.metaRunID with
                | some r => r
                | none => baseName latestDir
              Except.ok
                { taskID := task.id, taskType := task.type, configPath := cfgPath,
                  resultDir := latestDir, runID := runID, symbol := snap.symbol,
                  interval := snap.interval, start := snap.start, endDate := snap.endDate,
                  summary := env.summaryData.getD "", createdAt := nowStr }

/-- One row of the `runs` table: the AUTOINCREMENT `id` column plus the
selected `RunIndex` columns. -/
structure RunsRow where
  rowid : Nat
  entry : RunIndex
deriving DecidableEq, Repr

/-- Appending `INSERT INTO runs`: rows are stored in insertion order
with strictly increasing AUTOINCREMENT ids (there are no deletes). -/
def insertRun (table : List RunsRow) (e : RunIndex) : List RunsRow :=
  table ++ [{ rowid := table.length + 1, entry := e }]

/-- Embeds the tail of the worker loop after a successful run:
`UpdateTask` does not change the in-memory task, and a `SaveRunIndex`
failure is only logged, so the task (already `succeeded`) is returned
unchanged and the `runs` table gains a row exactly when `saveRunIndex`
succeeds. -/
def successPostProcessing (repoRoot : String) (t : Task) (env : RunsEnv)
    (nowStr : String) (table : List RunsRow) : Task × List RunsRow :=
  match saveRunIndex repoRoot t env nowStr with
  | Except.ok row => (t, insertRun table row)
  | Except.error _ => (t, table)

/-- Embeds `RunFilter`; the source's `From`/`To` fields are named
`fromT`/`toT` because `from` is reserved in Lean.  `limit` is a Go
`int` fed to SQLite's `LIMIT ?`. -/
structure RunFilter where
  limit : Int
  taskID : String
  symbol : String
  fromT : String
  toT : String
deriving DecidableEq, Repr

/-- Embeds the WHERE clause built by `buildRunQuery`: each filter field
that is provided (non-empty) must match — `task_id` and `symbol` by
equality, `created_at` within the `[from, to]` range under SQLite TEXT
(byte-wise) comparison. -/
def matchesFilter (f : RunFilter) (e : RunIndex) : Bool :=
  (f.taskID == "" || e.taskID == f.taskID) &&
  (f.symbol == "" || e.symbol == f.symbol) &&
  (f.fromT == "" || bytewiseLe f.fromT.data e.createdAt.data) &&
  (f.toT == "" || bytewiseLe e.createdAt.data f.toT.data)

/-- Embeds `Storage.ListRuns` over a `runs` table held in rowid
(insertion) order: `WHERE` filtering, `ORDER BY id DESC` (reverse of
insertion order), and `LIMIT ?` (SQLite treats a negative limit as
unlimited). -/
def listRuns (table : List RunsRow) (f : RunFilter) : List RunsRow :=
  let matched := (table.filter (fun r => matchesFilter f r.entry)).reverse
  if f.limit < 0 then matched else matched.take f.limit.toNat

/-- Decimal digit value of a character, if it is one. -/
def charDigit? (c : Char) : Option Nat :=
  if c.isDigit then some (c.toNat - 48) else none

/-- Accumulating decimal evaluation of a digit string; fails on any
non-digit. -/
def digitsValAux : List Char → Nat → Option Nat
  | [], acc => some acc
  | c :: rest, acc =>
      match charDigit? c with
      | some d => digitsValAux rest (acc * 10 + d)
      | none => none

/-- Value of a non-empty all-digit string. -/
def digitsVal? (l : List Char) : Option Nat :=
  if l.isEmpty then none else digitsValAux l 0

/-- Embeds `strconv.Atoi` for the inputs the server sees: an optional
sign followed by at least one digit; anything else is an error.  (The
64-bit range error of the source is not modelled; any value it would
reject is also rejected by the handler's `1..200` window.) -/
def goAtoi (s : String) : Option Int :=
  match s.data with
  | '+' :: rest => (digitsVal? rest).map (fun n => (n : Int))
  | '-' :: rest => (digitsVal? rest).map (fun n => -(n : Int))
  | l => (digitsVal? l).map (fun n => (n : Int))

/-- Embeds the limit computation of `handleRuns`: start from the
default 20; if the `limit` query parameter is present (`Get` returns
the empty string when absent), parses as an integer `n`, and satisfies
`0 < n ≤ 200`, use `n`; otherwise keep 20. -/
def effectiveLimit (v : String) : Int :=
  if v != "" then
    match goAtoi v with
    | some n => if n > 0 && n ≤ 200 then n else 20
    | none => 20
  else 20

/-- A registered WebSocket connection; `writeOk` is whether
`conn.WriteJSON` succeeds for the event being broadcast. -/
structure WsConn where
  id : Nat
  writeOk : Bool
deriving DecidableEq, Repr

/-- Result of one `Hub.Broadcast` call: the surviving registry, the
connections the event was written to, and the connections that were
closed and removed. -/
structure BroadcastResult where
  clients : List WsConn
  delivered : List Nat
  closed : List Nat
deriving DecidableEq, Repr

/-- Embeds `Hub.Broadcast`: under the hub lock, write the event to each
registered connection; a failed write closes the connection and deletes
it from the registry, a successful write leaves it registered.  The
function is total — no error is returned to the caller. -/
def hubBroadcast : List WsConn → BroadcastResult
  | [] => { clients := [], delivered := [], closed := [] }
  | c :: rest =>
      let r := hubBroadcast rest
      if c.writeOk then
        { clients := c :: r.clients, delivered := c.id :: r.delivered, closed := r.closed }
      else
        { clients := r.clients, delivered := r.delivered, closed := c.id :: r.closed }

/-- A sample failing run outcome (non-zero exit), used for concrete
scenarios. -/
def exitOneResponse : RunResponse :=
  { ok := false, exitCode := 1, stdout := "", stderr := "fail", durationMs := 5,
    error := "exit status 1" }

/-- A sample request payload, used for concrete scenarios. -/
def sampleRequest : RunRequest := { config := "config/config.yml", topN := 0 }

/-- The failure conditions claimed for `SaveRunIndex`: unreadable
config, a required descriptive field absent (empty), or no output
subdirectory (directory unreadable or without subdirectories). -/
def indexDerivationFailure (env : RunsEnv) : Prop :=
  env.cfg = .unreadable ∨
  (∃ c, env.cfg = .ok c ∧
    (c.symbol = "" ∨ c.interval = "" ∨ c.start = "" ∨ c.endDate = "")) ∨
  env.resultDirEntries = none ∨
  (∃ es, env.resultDirEntries = some es ∧ ∀ e ∈ es, e.isDir = false)

/-- A sample result-index entry, used for concrete scenarios. -/
def sampleRunIndex : RunIndex :=
  { taskID := "20260101000000-1", taskType := "backtest",
    configPath := "/repo/config/config.yml", resultDir := "/repo/results/backtest/x",
    runID := "run1", symbol := "BTCUSDT", interval := "1h", start := "2024-01-01",
    endDate := "2024-06-30", summary := "", createdAt := "2026-01-01T00:00:00Z" }

/-- Concrete scenario: the always-failing task with `max_retries = 2`,
driven to completion (its three attempts). -/
def alwaysFailR2Run : Task × List TaskStatus :=
  processLoop 3 (enqueueTask "t1" "backtest" sampleRequest 2 0) exitOneResponse 1

/-- The status broadcasts of the `max_retries = 2` always-failing
scenario, starting with the `pending` broadcast `Enqueue` emits. -/
def alwaysFailR2Trace : List TaskStatus :=
  TaskStatus.pending :: alwaysFailR2Run.2

/-- Concrete scenario: the task state `UpdateTask` has persisted when
the first (and only allowed, `max_retries = 0`) attempt starts —
`running` with `attempts = 1` — at which point the process crashes. -/
def crashPersistedTask : Task :=
  runningTransition (enqueueTask "t1" "backtest" sampleRequest 0 0) 1

/-- The same task after the restart recovery re-enqueues it and the
next execution attempt fails. -/
def crashRecoveredOutcome : Task :=
  (workerIteration (recoverTask crashPersistedTask).1 exitOneResponse 2).task

/-- Concrete scenario: a crash-interrupted `running` task in the store. -/
def storedRunningTask : Task :=
  runningTransition (enqueueTask "r1" "backtest" sampleRequest 2 0) 1

/-- Concrete scenario: a terminal `succeeded` task in the store. -/
def storedSucceededTask : Task :=
  { enqueueTask "s1" "backtest" sampleRequest 2 0 with status := TaskStatus.succeeded }

section Theorems

/-- Unfolding of the retried worker iteration: when the iteration
re-enqueues, its resulting task is the retry reset of the just-failed
task. -/
theorem workerIteration_reenqueued_eq (t : Task) (res : RunResponse) (now : Nat)
    (h : (workerIteration t res now).reenqueued = true) :
    (workerIteration t res now).task =
      retryReset (finishTransition (runningTransition t now) res now) := by
  unfold workerIteration at h ⊢
  cases hta : taskArgs (runningTransition t now) with
  | none => simp [hta] at h
  | some args =>
      simp only [hta] at h ⊢
      by_cases hc :
          (!res.ok && decide ((finishTransition (runningTransition t now) res now).attempts ≤
            (finishTransition (runningTransition t now) res now).maxRetries)) = true
      · simp [hc]
      · simp [hc] at h

/-- C5: the retry path's reset sets status back to `pending` and clears
exactly the start timestamp, finish timestamp and result; ID, type,
request, attempts, max-retries, creation time and last error are
unchanged; and a re-enqueued worker iteration produces exactly this
reset of the just-failed task. -/
theorem C5_retry_reset_frame :
    (∀ t : Task,
      (retryReset t).status = .pending ∧
      (retryReset t).startedAt = none ∧
      (retryReset t).finishedAt = none ∧
      (retryReset t).result = none ∧
      (retryReset t).id = t.id ∧
      (retryReset t).type = t.type ∧
      (retryReset t).request = t.request ∧
      (retryReset t).attempts = t.attempts ∧
      (retryReset t).maxRetries = t.maxRetries ∧
      (retryReset t).createdAt = t.createdAt ∧
      (retryReset t).lastError = t.lastError) ∧
    (∀ (t : Task) (res : RunResponse) (now : Nat),
      (workerIteration t res now).reenqueued = true →
      (workerIteration t res now).task =
        retryReset (finishTransition (runningTransition t now) res now)) := by
  refine ⟨fun t => ?_, fun t res now h => workerIteration_reenqueued_eq t res now h⟩
  simp [retryReset]

/-- Witness for C5 at a concrete retried iteration (max-retries 1, so
the first failed attempt is re-enqueued). -/
theorem C5_witness :
    (workerIteration (enqueueTask "t1" "backtest" sampleRequest 1 0) exitOneResponse 3).reenqueued
        = true ∧
    (workerIteration (enqueueTask "t1" "backtest" sampleRequest 1 0) exitOneResponse 3).task =
      retryReset (finishTransition
        (runningTransition (enqueueTask "t1" "backtest" sampleRequest 1 0) 3)
        exitOneResponse 3) :=
  ⟨by decide,
   C5_retry_reset_frame.2 (enqueueTask "t1" "backtest" sampleRequest 1 0) exitOneResponse 3
     (by decide)⟩

/-- Closed-form description of one `Hub.Broadcast` call. -/
theorem hubBroadcast_eq (cs : List WsConn) :
    hubBroadcast cs =
      { clients := cs.filter (fun c => c.writeOk)
        delivered := (cs.filter (fun c => c.writeOk)).map (fun c => c.id)
        closed := (cs.filter (fun c => !c.writeOk)).map (fun c => c.id) } := by
  induction cs with
  | nil => rfl
  | cons c rest ih =>
      by_cases h : c.writeOk = true <;> simp [hubBroadcast, ih, h, List.filter_cons]

/-- C9: `Hub.Broadcast` writes the event to every connection whose
write succeeds (which stays registered), closes and removes every
connection whose write fails within the same call, and returns nothing
to its caller (the model is a total function with no error component);
in particular with one dead and one live connection the live one
receives the event and stays, and the dead one is closed and removed. -/
theorem C9_broadcast (cs : List WsConn) :
    (hubBroadcast cs).clients = cs.filter (fun c => c.writeOk) ∧
    (hubBroadcast cs).delivered = (cs.filter (fun c => c.writeOk)).map (fun c => c.id) ∧
    (hubBroadcast cs).closed = (cs.filter (fun c => !c.writeOk)).map (fun c => c.id) ∧
    hubBroadcast [⟨1, false⟩, ⟨2, true⟩] =
      { clients := [⟨2, true⟩], delivered := [2], closed := [1] } := by
  refine ⟨?_, ?_, ?_, by decide⟩ <;> simp [hubBroadcast_eq]

/-- Length of a `ListRuns` answer under a non-negative limit. -/
theorem listRuns_length_le (table : List RunsRow) (f : RunFilter) (h : 0 ≤ f.limit) :
    (listRuns table f).length ≤ f.limit.toNat := by
  unfold listRuns
  rw [if_neg (by omega)]
  rw [List.length_take]
  exact Nat.min_le_left _ _

/-- C7 counterexample: a requested limit of 500 yields the effective
limit 20, not the claimed 200. -/
theorem C7_counterexample : effectiveLimit "500" = 20 ∧ effectiveLimit "500" ≠ 200 :=
  ⟨rfl, by decide⟩

/-- C7 (amended): the effective limit defaults to 20 when the `limit`
parameter is absent; a supplied value is honoured only when it parses
and lies in `1..200`; a value above 200 (like any unparsable or
non-positive one) falls back to the default 20; consequently the
effective limit never exceeds 200 and `ListRuns` returns at most 200
rows (and at most `min(requested, 200)`). -/
theorem C7_limit_amended :
    effectiveLimit "" = 20 ∧
    (∀ v : String, 1 ≤ effectiveLimit v ∧ effectiveLimit v ≤ 200) ∧
    (∀ (v : String) (n : Int), goAtoi v = some n → 0 < n → n ≤ 200 → v ≠ "" →
      effectiveLimit v = n) ∧
    (∀ (v : String) (n : Int), goAtoi v = some n → 200 < n → effectiveLimit v = 20) ∧
    (∀ (table : List RunsRow) (v tid sym lo hi : String),
      (listRuns table ⟨effectiveLimit v, tid, sym, lo, hi⟩).length ≤ 200) := by
  have hrange : ∀ v : String, 1 ≤ effectiveLimit v ∧ effectiveLimit v ≤ 200 := by
    intro v
    unfold effectiveLimit
    split
    · cases ha : goAtoi v with
      | none => simp
      | some n =>
          simp only
          split
          · next hcond =>
              simp only [Bool.and_eq_true, decide_eq_true_eq] at hcond
              omega
          · simp
    · simp
  refine ⟨rfl, hrange, ?_, ?_, ?_⟩
  · intro v n ha hpos hle hne
    unfold effectiveLimit
    rw [if_pos (by simpa using hne), ha]
    simp only
    rw [if_pos]
    simp only [Bool.and_eq_true, decide_eq_true_eq]
    omega
  · intro v n ha hgt
    unfold effectiveLimit
    split
    · rw [ha]
      simp only
      rw [if_neg]
      simp only [Bool.and_eq_true, decide_eq_true_eq]
      omega
    · rfl
  · intro table v tid sym lo hi
    have h1 := (hrange v).1
    have h2 := (hrange v).2
    have h3 := listRuns_length_le table ⟨effectiveLimit v, tid, sym, lo, hi⟩ (by simp; omega)
    simp only at h3
    omega

/-- Witness for C7 at limit 150: parses, lies in range, and is used. -/
theorem C7_witness : effectiveLimit "150" = 150 :=
  C7_limit_amended.2.2.1 "150" 150 (by decide) (by decide) (by decide) (by decide)

/-- The latest-subdirectory scan is the identity when no entry is a
directory. -/
theorem latestFold_const (baseDir : String) (es : List DirEntry)
    (h : ∀ e ∈ es, e.isDir = false) (acc : String × Nat) :
    es.foldl (fun (acc : String × Nat) e =>
      if !e.isDir then acc
      else if acc.1 == "" || e.modTime > acc.2 then (baseDir ++ "/" ++ e.name, e.modTime)
      else acc) acc = acc := by
  induction es generalizing acc with
  | nil => rfl
  | cons e rest ih =>
      have he : e.isDir = false := h e (List.mem_cons_self e rest)
      simp only [List.foldl_cons, he]
      exact ih (fun e' he' => h e' (List.mem_cons_of_mem e he')) acc

/-- `findLatestDir` yields the empty marker when the base directory
holds no subdirectory. -/
theorem findLatestDir_no_subdir (baseDir : String) (es : List DirEntry)
    (h : ∀ e ∈ es, e.isDir = false) :
    findLatestDir baseDir (some es) = Except.ok "" := by
  unfold findLatestDir
  dsimp only
  rw [latestFold_const baseDir es h ("", 0)]

/-- C6: `SaveRunIndex` returns an error whenever the config file is
unreadable, a required descriptive field (symbol, interval, start, end)
is absent, or no output subdirectory exists (directory unreadable or
empty of subdirectories); on any such failure no `runs` row is inserted
and the owning task — already `succeeded` — is left unchanged, the
caller only logging the error. -/
theorem C6_save_run_index_errors (repoRoot nowStr : String) (t : Task) (env : RunsEnv)
    (table : List RunsRow) (h : indexDerivationFailure env) :
    (∃ e, saveRunIndex repoRoot t env nowStr = Except.error e) ∧
    successPostProcessing repoRoot t env nowStr table = (t, table) ∧
    (successPostProcessing repoRoot t env nowStr table).1.status = t.status := by
  have herr : ∃ e, saveRunIndex repoRoot t env nowStr = Except.error e := by
    rcases h with hcfg | ⟨c, hcfg, hf⟩ | hdir | ⟨es, hdir, hall⟩
    · exact ⟨"读取配置失败", by simp only [saveRunIndex, hcfg]⟩
    · refine ⟨"配置缺少 backtest 关键字段", ?_⟩
      have hcond : (c.symbol == "" || c.interval == "" || c.start == "" ||
          c.endDate == "") = true := by
        rcases hf with h1 | h1 | h1 | h1 <;> simp [h1]
      simp only [saveRunIndex, hcfg, hcond, if_true]
    · cases hcfg : env.cfg with
      | unreadable => exact ⟨"读取配置失败", by simp only [saveRunIndex, hcfg]⟩
      | parseFailed => exact ⟨"解析配置失败", by simp only [saveRunIndex, hcfg]⟩
      | ok c =>
          by_cases hcond : (c.symbol == "" || c.interval == "" || c.start == "" ||
              c.endDate == "") = true
          · exact ⟨"配置缺少 backtest 关键字段",
              by simp only [saveRunIndex, hcfg, hcond, if_true]⟩
          · rw [Bool.not_eq_true] at hcond
            refine ⟨"读取结果目录失败", ?_⟩
            simp only [saveRunIndex, hcfg, hcond, hdir, findLatestDir, Bool.false_eq_true,
              if_false]
    · cases hcfg : env.cfg with
      | unreadable => exact ⟨"读取配置失败", by simp only [saveRunIndex, hcfg]⟩
      | parseFailed => exact ⟨"解析配置失败", by simp only [saveRunIndex, hcfg]⟩
      | ok c =>
          by_cases hcond : (c.symbol == "" || c.interval == "" || c.start == "" ||
              c.endDate == "") = true
          · exact ⟨"配置缺少 backtest 关键字段",
              by simp only [saveRunIndex, hcfg, hcond, if_true]⟩
          · rw [Bool.not_eq_true] at hcond
            refine ⟨"未找到结果目录", ?_⟩
            simp only [saveRunIndex, hcfg, hcond, hdir, Bool.false_eq_true, if_false,
              findLatestDir_no_subdir _ es hall]
            simp
  obtain ⟨e, he⟩ := herr
  refine ⟨⟨e, he⟩, ?_, ?_⟩ <;> simp [successPostProcessing, he]

/-- Witness for C6: an unreadable config file makes `SaveRunIndex`
fail, inserts no row, and leaves the succeeded task untouched. -/
theorem C6_witness :
    (∃ e, saveRunIndex "/repo" (enqueueTask "t1" "backtest" sampleRequest 0 0)
      ⟨FileRead.unreadable, none, none, none⟩ "now" = Except.error e) ∧
    successPostProcessing "/repo" (enqueueTask "t1" "backtest" sampleRequest 0 0)
      ⟨FileRead.unreadable, none, none, none⟩ "now" [] =
      (enqueueTask "t1" "backtest" sampleRequest 0 0, []) := by
  have h := C6_save_run_index_errors "/repo" "now"
    (enqueueTask "t1" "backtest" sampleRequest 0 0)
    ⟨FileRead.unreadable, none, none, none⟩ [] (Or.inl rfl)
  exact ⟨h.1, h.2.1⟩

/-- A worker iteration increments the attempt count by exactly one. -/
theorem workerIteration_attempts (t : Task) (res : RunResponse) (now : Nat) :
    (workerIteration t res now).task.attempts = t.attempts + 1 := by
  unfold workerIteration
  dsimp only
  split
  · simp [runningTransition]
  · split <;> simp [retryReset, finishTransition, runningTransition, apply_ite]

/-- A worker iteration leaves the configured max-retries untouched. -/
theorem workerIteration_maxRetries (t : Task) (res : RunResponse) (now : Nat) :
    (workerIteration t res now).task.maxRetries = t.maxRetries := by
  unfold workerIteration
  dsimp only
  split
  · simp [runningTransition]
  · split <;> simp [retryReset, finishTransition, runningTransition, apply_ite]

/-- A worker iteration leaves the task type untouched. -/
theorem workerIteration_type (t : Task) (res : RunResponse) (now : Nat) :
    (workerIteration t res now).task.type = t.type := by
  unfold workerIteration
  dsimp only
  split
  · simp [runningTransition]
  · split <;> simp [retryReset, finishTransition, runningTransition, apply_ite]

/-- The retry guard: an iteration re-enqueues only when the incremented
attempt count is still within max-retries. -/
theorem workerIteration_reenqueued_le (t : Task) (res : RunResponse) (now : Nat)
    (h : (workerIteration t res now).reenqueued = true) :
    (workerIteration t res now).task.attempts ≤ (workerIteration t res now).task.maxRetries := by
  unfold workerIteration at h ⊢
  dsimp only at h ⊢
  split at h
  · simp at h
  · split at h
    · next hguard =>
        have hle := of_decide_eq_true ((Bool.and_eq_true _ _).mp hguard).2
        simp only [if_pos hguard]
        simpa [retryReset] using hle
    · simp at h

/-- One unfolding step of the iterated worker loop. -/
theorem processLoop_succ (fuel : Nat) (t : Task) (res : RunResponse) (clock : Nat) :
    processLoop (fuel + 1) t res clock =
      (if (workerIteration t res clock).reenqueued then
        ((processLoop fuel (workerIteration t res clock).task res (clock + 1)).1,
          (workerIteration t res clock).broadcasts ++
            (processLoop fuel (workerIteration t res clock).task res (clock + 1)).2)
      else ((workerIteration t res clock).task, (workerIteration t res clock).broadcasts)) :=
  rfl

/-- Closed form of a worker iteration on a `backtest` task whose
attempt fails: within max-retries it bounces `running, failed, pending`
and re-enqueues the reset task; beyond them it ends
`running, failed`. -/
theorem workerIteration_fail_eq (t : Task) (res : RunResponse) (now : Nat)
    (hty : t.type = "backtest") (hres : res.ok = false) :
    workerIteration t res now =
      if t.attempts + 1 ≤ t.maxRetries then
        { task :=
            { t with
              status := .pending, result := none, lastError := res.error,
              attempts := t.attempts + 1, startedAt := none, finishedAt := none }
          reenqueued := true
          broadcasts := [TaskStatus.running, TaskStatus.failed, TaskStatus.pending] }
      else
        { task :=
            { t with
              status := .failed, result := some res, lastError := res.error,
              attempts := t.attempts + 1, startedAt := some now, finishedAt := some now }
          reenqueued := false
          broadcasts := [TaskStatus.running, TaskStatus.failed] } := by
  unfold workerIteration
  simp only [taskArgs, runningTransition, finishTransition, retryReset, hty, hres,
    Bool.not_false, Bool.true_and, Bool.false_eq_true, if_false, decide_eq_true_eq]

/-- Closed form of the worker loop on a task whose every attempt fails:
after the remaining `n + 1` attempts the task is permanently `failed`
with `attempts = maxRetries + 1`, and the broadcasts show `n` bounces
through `running, failed, pending` followed by the final
`running, failed`. -/
theorem processLoop_fail (res : RunResponse) (hres : res.ok = false) :
    ∀ (n : Nat) (t : Task) (clock : Nat), t.type = "backtest" →
    t.attempts + (n + 1) = t.maxRetries + 1 →
    processLoop (n + 1) t res clock =
      ({ t with status := .failed, attempts := t.maxRetries + 1, lastError := res.error,
                result := some res, startedAt := some (clock + n),
                finishedAt := some (clock + n) },
       (List.replicate n [TaskStatus.running, TaskStatus.failed, TaskStatus.pending]).flatten ++
         [TaskStatus.running, TaskStatus.failed]) := by
  intro n
  induction n with
  | zero =>
      intro t clock hty hatt
      have ha : t.attempts = t.maxRetries := by omega
      have hguard : ¬ (t.attempts + 1 ≤ t.maxRetries) := by omega
      rw [processLoop_succ, workerIteration_fail_eq t res clock hty hres, if_neg hguard]
      dsimp only
      rw [ha]
      simp
  | succ n ih =>
      intro t clock hty hatt
      have hguard : t.attempts + 1 ≤ t.maxRetries := by omega
      rw [processLoop_succ, workerIteration_fail_eq t res clock hty hres, if_pos hguard]
      dsimp only
      rw [if_pos rfl]
      rw [ih
        { t with
          status := .pending, result := none, lastError := res.error,
          attempts := t.attempts + 1, startedAt := none, finishedAt := none }
        (clock + 1) (by exact hty)
        (by show t.attempts + 1 + (n + 1) = t.maxRetries + 1; omega)]
      rw [show clock + 1 + n = clock + (n + 1) from by omega]
      simp [List.replicate_succ]

/-- C1 counterexample: for the always-failing `max_retries = 2` task
the broadcast status sequence is
pending, running, failed, pending, running, failed, pending, running,
failed — each retry passes through a transient `failed` before the
reset to `pending` — and not the claimed
pending, running, pending, running, pending, running, failed (the
final state and `attempts = 3` do hold). -/
theorem C1_counterexample :
    alwaysFailR2Trace =
      [TaskStatus.pending, .running, .failed, .pending, .running, .failed, .pending,
        .running, .failed] ∧
    alwaysFailR2Trace ≠
      [TaskStatus.pending, .running, .pending, .running, .pending, .running, .failed] ∧
    alwaysFailR2Run.1.status = TaskStatus.failed ∧
    alwaysFailR2Run.1.attempts = 3 := by
  refine ⟨by decide, by decide, by decide, by decide⟩

/-- C1 (amended): a task whose every attempt fails and whose
max-retries is `R` is reset to `pending` and re-enqueued after each of
its first `R` failed attempts and left permanently `failed` after
attempt `R + 1`, with final `attempts = R + 1`; the broadcast status
sequence is `pending` followed by `R` bounces `running, failed,
pending` (the `failed` is transient, set just before each reset) and a
final `running, failed`.  For `R = 0` the sequence is
`pending, running, failed`: one attempt, never reset to `pending`. -/
theorem C1_retry_loop_amended (R : Nat) (id : String) (req : RunRequest)
    (res : RunResponse) (c0 clock : Nat) (hres : res.ok = false) :
    (processLoop (R + 1) (enqueueTask id "backtest" req R c0) res clock).1.status =
      TaskStatus.failed ∧
    (processLoop (R + 1) (enqueueTask id "backtest" req R c0) res clock).1.attempts = R + 1 ∧
    TaskStatus.pending :: (processLoop (R + 1) (enqueueTask id "backtest" req R c0) res clock).2 =
      TaskStatus.pending ::
        ((List.replicate R [TaskStatus.running, TaskStatus.failed, TaskStatus.pending]).flatten ++
          [TaskStatus.running, TaskStatus.failed]) := by
  rw [processLoop_fail res hres R (enqueueTask id "backtest" req R c0) clock rfl
    (by show 0 + (R + 1) = R + 1; omega)]
  exact ⟨rfl, rfl, rfl⟩

/-- Witness for C1 (amended) at `R = 1`. -/
theorem C1_witness :
    (processLoop 2 (enqueueTask "t2" "backtest" sampleRequest 1 0) exitOneResponse 1).1.status =
      TaskStatus.failed ∧
    (processLoop 2 (enqueueTask "t2" "backtest" sampleRequest 1 0) exitOneResponse 1).1.attempts
      = 2 ∧
    TaskStatus.pending ::
        (processLoop 2 (enqueueTask "t2" "backtest" sampleRequest 1 0) exitOneResponse 1).2 =
      TaskStatus.pending ::
        ((List.replicate 1 [TaskStatus.running, TaskStatus.failed, TaskStatus.pending]).flatten ++
          [TaskStatus.running, TaskStatus.failed]) :=
  C1_retry_loop_amended 1 "t2" sampleRequest exitOneResponse 0 1 (by decide)

/-- Every task state the worker loop produces from a start state within
its retry budget keeps `attempts ≤ maxRetries + 1`. -/
theorem processStates_attempts_le (ress : List RunResponse) :
    ∀ (t : Task) (clock : Nat), t.attempts ≤ t.maxRetries →
    ∀ u ∈ processStates ress t clock, u.attempts ≤ u.maxRetries + 1 := by
  induction ress with
  | nil => intro t clock _ u hu; simp [processStates] at hu
  | cons res rest ih =>
      intro t clock hle u hu
      simp only [processStates] at hu
      by_cases hr : (workerIteration t res clock).reenqueued = true
      · rw [if_pos hr] at hu
        rcases List.mem_cons.mp hu with h | h
        · subst h
          rw [workerIteration_attempts, workerIteration_maxRetries]
          omega
        · refine ih _ (clock + 1) (workerIteration_reenqueued_le t res clock hr) u h
      · rw [if_neg hr] at hu
        rcases List.mem_cons.mp hu with h | h
        · subst h
          rw [workerIteration_attempts, workerIteration_maxRetries]
          omega
        · simp at h

/-- C2 counterexample: the bound `attempts ≤ max_retries + 1` is not
preserved across the startup recovery.  A fresh `max_retries = 0` task
whose first attempt is persisted as `running` with `attempts = 1` (and
then interrupted by a crash) is re-enqueued by the recovery with its
attempt count preserved, and the next failing execution leaves it
permanently `failed` with `attempts = 2 > max_retries + 1 = 1`. -/
theorem C2_counterexample :
    crashPersistedTask.status = TaskStatus.running ∧
    crashPersistedTask.attempts = 1 ∧
    crashPersistedTask.maxRetries = 0 ∧
    (recoverTask crashPersistedTask).2 = true ∧
    crashRecoveredOutcome.status = TaskStatus.failed ∧
    crashRecoveredOutcome.attempts = 2 ∧
    crashRecoveredOutcome.maxRetries = 0 ∧
    ¬ crashRecoveredOutcome.attempts ≤ crashRecoveredOutcome.maxRetries + 1 := by
  refine ⟨by decide, by decide, by decide, by decide, by decide, by decide, by decide,
    by decide⟩

/-- C2 (amended): within a single process lifetime the invariant holds —
a task enqueued by `Enqueue` starts with `attempts = 0`, and every
state the worker loop produces from it satisfies
`attempts ≤ maxRetries + 1` (the re-enqueue guard admits only tasks
with `attempts ≤ maxRetries`).  The startup recovery, which re-enqueues
crash-interrupted tasks with attempts preserved, is the exception shown
by the counterexample. -/
theorem C2_attempts_invariant_amended :
    (∀ (id ty : String) (req : RunRequest) (R c0 : Nat),
      (enqueueTask id ty req R c0).attempts = 0) ∧
    (∀ (id ty : String) (req : RunRequest) (R c0 clock : Nat) (ress : List RunResponse),
      ∀ u ∈ processStates ress (enqueueTask id ty req R c0) clock,
        u.attempts ≤ u.maxRetries + 1) := by
  refine ⟨fun id ty req R c0 => rfl, fun id ty req R c0 clock ress u hu => ?_⟩
  exact processStates_attempts_le ress (enqueueTask id ty req R c0) clock
    (by show 0 ≤ R; omega) u hu

/-- Witness for C2 (amended): the state after the first failed,
re-enqueued attempt of a `max_retries = 2` task. -/
theorem C2_witness :
    (retryReset (finishTransition
        (runningTransition (enqueueTask "t1" "backtest" sampleRequest 2 0) 1)
        exitOneResponse 1)).attempts ≤
      (retryReset (finishTransition
        (runningTransition (enqueueTask "t1" "backtest" sampleRequest 2 0) 1)
        exitOneResponse 1)).maxRetries + 1 :=
  C2_attempts_invariant_amended.2 "t1" "backtest" sampleRequest 2 0 1 [exitOneResponse] _
    (by decide)

/-- The startup task map holds every loaded task (post-recovery). -/
theorem loadRecover_tasks (stored : List Task) :
    (loadRecover stored).tasks = stored.map (fun t => (t.id, (recoverTask t).1)) := by
  induction stored with
  | nil => rfl
  | cons t rest ih => simp [loadRecover, ih]

/-- The startup queue holds exactly the recovered versions of the
`pending`/`running` loaded tasks, in load order. -/
theorem loadRecover_queue (stored : List Task) :
    (loadRecover stored).queue =
      (stored.filter (fun t => t.status == TaskStatus.pending ||
        t.status == TaskStatus.running)).map (fun t => (recoverTask t).1) := by
  induction stored with
  | nil => rfl
  | cons t rest ih =>
      simp only [loadRecover, ih, List.filter_cons]
      by_cases h : (t.status == TaskStatus.pending || t.status == TaskStatus.running) = true
      · have hp : t.status = TaskStatus.pending ∨ t.status = TaskStatus.running := by
          simpa using h
        simp [recoverTask, h, hp]
      · have hp : ¬ (t.status = TaskStatus.pending ∨ t.status = TaskStatus.running) := by
          simpa using h
        simp [recoverTask, h, hp]

/-- C3: at startup every loaded task enters the task map; a task whose
stored status is `pending` or `running` is reset to `pending` with
`started_at`/`finished_at` cleared, its attempt count preserved, and is
re-enqueued; a task loaded in terminal `succeeded`/`failed` status is
kept as loaded and the queue holds only the recovered
`pending`/`running` tasks (so terminal tasks are never re-enqueued). -/
theorem C3_startup_recovery (stored : List Task) :
    (loadRecover stored).tasks = stored.map (fun t => (t.id, (recoverTask t).1)) ∧
    (loadRecover stored).queue =
      (stored.filter (fun t => t.status == TaskStatus.pending ||
        t.status == TaskStatus.running)).map (fun t => (recoverTask t).1) ∧
    (∀ t : Task, ((recoverTask t).1).attempts = t.attempts) ∧
    (∀ t ∈ stored, (t.status = TaskStatus.pending ∨ t.status = TaskStatus.running) →
      (recoverTask t).1 =
        { t with status := TaskStatus.pending, startedAt := none, finishedAt := none } ∧
      (recoverTask t).1 ∈ (loadRecover stored).queue) ∧
    (∀ t : Task, (t.status = TaskStatus.succeeded ∨ t.status = TaskStatus.failed) →
      recoverTask t = (t, false)) := by
  refine ⟨loadRecover_tasks stored, loadRecover_queue stored, ?_, ?_, ?_⟩
  · intro t
    unfold recoverTask
    split <;> rfl
  · intro t ht hst
    have hcond : (t.status == TaskStatus.pending || t.status == TaskStatus.running) = true := by
      rcases hst with h | h <;> simp [h]
    constructor
    · unfold recoverTask
      rw [if_pos hcond]
    · rw [loadRecover_queue stored]
      exact List.mem_map_of_mem _ (List.mem_filter.mpr ⟨ht, hcond⟩)
  · intro t hst
    have hcond : (t.status == TaskStatus.pending || t.status == TaskStatus.running) = false := by
      rcases hst with h | h <;> simp [h]
    unfold recoverTask
    rw [hcond]
    simp

/-- Witness for C3: a store holding one crash-interrupted `running`
task and one terminal `succeeded` task. -/
theorem C3_witness :
    (recoverTask storedRunningTask).1 =
      { storedRunningTask with
        status := TaskStatus.pending, startedAt := none, finishedAt := none } ∧
    (recoverTask storedRunningTask).1 ∈
      (loadRecover [storedRunningTask, storedSucceededTask]).queue ∧
    ((recoverTask storedRunningTask).1).attempts = storedRunningTask.attempts ∧
    recoverTask storedSucceededTask = (storedSucceededTask, false) := by
  have h := C3_startup_recovery [storedRunningTask, storedSucceededTask]
  have hmem := h.2.2.2.1 storedRunningTask (by simp) (Or.inr (by decide))
  exact ⟨hmem.1, hmem.2, h.2.2.1 storedRunningTask,
    h.2.2.2.2 storedSucceededTask (Or.inl (by decide))⟩

/-- The digit rendering round-trips through its decimal value. -/
theorem valLE_natDigitsLEAux (fuel : Nat) :
    ∀ n : Nat, n < fuel → valLE (natDigitsLEAux fuel n) = n := by
  induction fuel with
  | zero => intro n h; omega
  | succ fuel ih =>
      intro n h
      unfold natDigitsLEAux
      by_cases h10 : n < 10
      · simp [h10, valLE]
      · rw [if_neg h10]
        have hdiv : n / 10 < fuel := by
          have h1 : n / 10 < n := Nat.div_lt_self (by omega) (by omega)
          omega
        simp only [valLE, ih (n / 10) hdiv]
        omega

/-- `natDigitsLE` is injective (it has `valLE` as a left inverse). -/
theorem natDigitsLE_injective : Function.Injective natDigitsLE := by
  intro a b h
  have ha := valLE_natDigitsLEAux (a + 1) a (by omega)
  have hb := valLE_natDigitsLEAux (b + 1) b (by omega)
  rw [← ha, ← hb]
  unfold natDigitsLE at h
  rw [h]

/-- Every rendered digit is below 10. -/
theorem natDigitsLEAux_lt_ten (fuel : Nat) :
    ∀ n d : Nat, d ∈ natDigitsLEAux fuel n → d < 10 := by
  induction fuel with
  | zero => intro n d h; simp [natDigitsLEAux] at h
  | succ fuel ih =>
      intro n d h
      unfold natDigitsLEAux at h
      by_cases h10 : n < 10
      · rw [if_pos h10] at h
        simp at h
        omega
      · rw [if_neg h10] at h
        rcases List.mem_cons.mp h with h' | h'
        · subst h'; exact Nat.mod_lt _ (by omega)
        · exact ih (n / 10) d h'

/-- `digitChar` is injective on digits. -/
theorem digitChar_injOn (a b : Nat) (ha : a < 10) (hb : b < 10)
    (h : digitChar a = digitChar b) : a = b := by
  interval_cases a <;> interval_cases b <;> revert h <;> decide

/-- Mapping `digitChar` over digit lists is injective. -/
theorem map_digitChar_inj : ∀ (l1 l2 : List Nat), (∀ d ∈ l1, d < 10) → (∀ d ∈ l2, d < 10) →
    l1.map digitChar = l2.map digitChar → l1 = l2 := by
  intro l1
  induction l1 with
  | nil => intro l2 _ _ h; cases l2 <;> simp_all
  | cons d rest ih =>
      intro l2 h1 h2 h
      cases l2 with
      | nil => simp at h
      | cons d' rest' =>
          simp only [List.map_cons, List.cons.injEq] at h
          have hd : d = d' := digitChar_injOn d d' (h1 d (by simp)) (h2 d' (by simp)) h.1
          have hr : rest = rest' := ih rest' (fun x hx => h1 x (by simp [hx]))
            (fun x hx => h2 x (by simp [hx])) h.2
          rw [hd, hr]

/-- `formatUint` (the source's `strconv.FormatUint(·, 10)`) is
injective. -/
theorem formatUint_injective : Function.Injective formatUint := by
  intro a b h
  unfold formatUint at h
  have hdata : (natDigitsLE a).reverse.map digitChar = (natDigitsLE b).reverse.map digitChar :=
    congrArg String.data h
  have hrev : (natDigitsLE a).reverse = (natDigitsLE b).reverse :=
    map_digitChar_inj _ _
      (fun d hd => natDigitsLEAux_lt_ten (a + 1) a d (List.mem_reverse.mp hd))
      (fun d hd => natDigitsLEAux_lt_ten (b + 1) b d (List.mem_reverse.mp hd)) hdata
  exact natDigitsLE_injective (List.reverse_injective hrev)

/-- C4 counterexample: within one wall-clock second the unpadded
sequence suffix breaks lexicographic monotonicity — the task created
later (sequence 10) receives an ID strictly smaller than the earlier
one (sequence 9), so sorting IDs does not reproduce creation order. -/
theorem C4_counterexample :
    nextID "20260101000000" 9 = "20260101000000-9" ∧
    nextID "20260101000000" 10 = "20260101000000-10" ∧
    idLt (nextID "20260101000000" 10) (nextID "20260101000000" 9) = true ∧
    idLt (nextID "20260101000000" 9) (nextID "20260101000000" 10) = false := by
  refine ⟨by decide, by decide, by decide, by decide⟩

/-- C4 (amended): IDs assigned within a single process run are unique —
for the fixed-width 14-character timestamps `nextID` receives, distinct
sequence numbers always yield distinct ID strings — but the IDs are not
monotonically increasing in creation order: within one second the
unpadded decimal sequence makes a later ID sort before an earlier one
(see the counterexample), and across a restart in the same second the
sequence counter resets so an identical ID string can recur
(`nextID` depends only on the timestamp and the counter). -/
theorem C4_id_uniqueness_amended (ts1 ts2 : String) (s1 s2 : Nat)
    (hlen1 : ts1.length = 14) (hlen2 : ts2.length = 14) (hne : s1 ≠ s2) :
    nextID ts1 s1 ≠ nextID ts2 s2 := by
  intro heq
  apply hne
  have hdata := congrArg String.data heq
  simp only [nextID, String.data_append] at hdata
  rw [List.append_assoc, List.append_assoc] at hdata
  have hlen : ts1.data.length = ts2.data.length := by
    have e1 : ts1.data.length = ts1.length := rfl
    have e2 : ts2.data.length = ts2.length := rfl
    rw [e1, e2, hlen1, hlen2]
  obtain ⟨-, htail⟩ := List.append_inj hdata hlen
  have hfmt : (formatUint s1).data = (formatUint s2).data := by
    simpa using htail
  have : formatUint s1 = formatUint s2 := by
    cases hf1 : formatUint s1 with
    | mk d1 =>
        cases hf2 : formatUint s2 with
        | mk d2 =>
            rw [hf1, hf2] at hfmt
            simp at hfmt
            rw [hfmt]
  exact formatUint_injective this

/-- Witness for C4 (amended): two IDs of the same second with distinct
sequence numbers differ. -/
theorem C4_witness : nextID "20260101000000" 1 ≠ nextID "20260101000000" 2 :=
  C4_id_uniqueness_amended "20260101000000" "20260101000000" 1 2 (by decide) (by decide)
    (by decide)

/-- Every row `ListRuns` returns satisfies every provided filter
field. -/
theorem listRuns_matches (table : List RunsRow) (f : RunFilter) :
    ∀ r ∈ listRuns table f, matchesFilter f r.entry = true := by
  intro r hr
  unfold listRuns at hr
  have hmem : r ∈ (table.filter (fun r => matchesFilter f r.entry)).reverse := by
    by_cases hneg : f.limit < 0
    · rw [if_pos hneg] at hr; exact hr
    · rw [if_neg hneg] at hr; exact List.mem_of_mem_take hr
  exact (List.mem_filter.mp (List.mem_reverse.mp hmem)).2

/-- `ListRuns` output is ordered by strictly descending rowid when the
table is in insertion (ascending rowid) order. -/
theorem listRuns_pairwise (table : List RunsRow) (f : RunFilter)
    (h : table.Pairwise (fun a b => a.rowid < b.rowid)) :
    (listRuns table f).Pairwise (fun a b => b.rowid < a.rowid) := by
  have hfil : (table.filter (fun r => matchesFilter f r.entry)).Pairwise
      (fun a b => a.rowid < b.rowid) := h.filter _
  have hrev : ((table.filter (fun r => matchesFilter f r.entry)).reverse).Pairwise
      (fun a b => b.rowid < a.rowid) := List.pairwise_reverse.mpr hfil
  unfold listRuns
  by_cases hneg : f.limit < 0
  · rw [if_pos hneg]; exact hrev
  · rw [if_neg hneg]
    exact hrev.sublist (List.take_sublist _ _)

/-- C8: `ListRuns` returns only rows matching every provided filter
field (task-id equality, symbol equality, creation time within the
requested range), newest (highest rowid) first, and at most
`filter.Limit` rows (for the non-negative limits the handler passes);
with limit 1 after two saved runs, only the most recently inserted run
is returned. -/
theorem C8_list_runs (table : List RunsRow) (f : RunFilter)
    (hsorted : table.Pairwise (fun a b => a.rowid < b.rowid)) (hlim : 0 ≤ f.limit) :
    (listRuns table f).length ≤ f.limit.toNat ∧
    (∀ r ∈ listRuns table f, matchesFilter f r.entry = true) ∧
    (listRuns table f).Pairwise (fun a b => b.rowid < a.rowid) ∧
    (∀ e1 e2 : RunIndex,
      listRuns (insertRun (insertRun [] e1) e2) ⟨1, "", "", "", ""⟩ =
        [{ rowid := 2, entry := e2 }]) :=
  ⟨listRuns_length_le table f hlim, listRuns_matches table f,
    listRuns_pairwise table f hsorted, fun _ _ => rfl⟩

/-- Witness for C8 on a one-row table with limit 5. -/
theorem C8_witness :
    (listRuns [{ rowid := 1, entry := sampleRunIndex }] ⟨5, "", "", "", ""⟩).length ≤
      (5 : Int).toNat ∧
    (listRuns [{ rowid := 1, entry := sampleRunIndex }] ⟨5, "", "", "", ""⟩).Pairwise
      (fun a b => b.rowid < a.rowid) :=
  ⟨(C8_list_runs [{ rowid := 1, entry := sampleRunIndex }] ⟨5, "", "", "", ""⟩
      (by simp) (by decide)).1,
   (C8_list_runs [{ rowid := 1, entry := sampleRunIndex }] ⟨5, "", "", "", ""⟩
      (by simp) (by decide)).2.2.1⟩

end Theorems

end ZenithAlgo
